import Mathlib

/-!
Verification development for the TxPyWiki rendering pipeline (`src/main.py`,
class `TxPyWikiParser`).  Python strings are modelled as `List Char`; the
regex-based rewrite rules of the source are modelled by explicit left-to-right
scanners that mirror Python's leftmost, non-greedy `re.sub` semantics for the
specific patterns used by the source.  Rendering is total except for the
places where the Python code can raise (`str.replace` applied to a list,
`list.append` on a str), which are modelled with `Except`; the unbounded
recursion of custom-template expansion is modelled with explicit fuel.
-/

namespace TxPyWiki

/-- The characters of a string literal; Python strings are `List Char` here. -/
def chars (s : String) : List Char := s.data

/-- Python `\s` / `str.strip` whitespace, restricted to the ASCII range
(the source only ever feeds it ASCII whitespace). -/
def isPySpace (c : Char) : Bool :=
  c = ' ' || c = '\t' || c = '\n' || c = '\r' || c = '\x0b' || c = '\x0c'

/-- Python `str.lstrip()` (no argument). -/
def py_lstrip (s : List Char) : List Char := s.dropWhile isPySpace

/-- Python `str.rstrip()` (no argument). -/
def py_rstrip (s : List Char) : List Char := (s.reverse.dropWhile isPySpace).reverse

/-- Python `str.strip()` (no argument). -/
def py_strip (s : List Char) : List Char := py_rstrip (py_lstrip s)

/-- Python `pat in s` (substring containment). -/
def hasSub (s pat : List Char) : Bool :=
  pat.isPrefixOf s ||
    (match s with
     | [] => false
     | _ :: s' => hasSub s' pat)

/-- Split `s` at the first occurrence of `pat`: `some (pre, post)` with
`s = pre ++ pat ++ post` and `pat` not a substring of any shorter split. -/
def findSplit? (pat : List Char) : List Char → Option (List Char × List Char)
  | [] => if pat.isPrefixOf ([] : List Char) then some ([], []) else none
  | c :: s' =>
    if pat.isPrefixOf (c :: s') then some ([], (c :: s').drop pat.length)
    else
      match findSplit? pat s' with
      | some (pre, post) => some (c :: pre, post)
      | none => none

/-- Generic left-to-right scan-and-rewrite engine.  `step s` returns
`some (out, rem)` when a match starts at the head of `s` (`out` the
replacement, `rem` the text after the match, always shorter than `s`), and
`none` to advance one character, exactly like `re.sub`'s leftmost scan.
The fuel is always seeded with more than the length of the text, so it
never runs out for the steps used here (every match consumes at least one
character). -/
def scanFuel (step : List Char → Option (List Char × List Char)) :
    Nat → List Char → List Char
  | 0, s => s
  | _ + 1, [] => []
  | fuel + 1, c :: s' =>
    match step (c :: s') with
    | some (out, rem) => out ++ scanFuel step fuel rem
    | none => c :: scanFuel step fuel s'

/-- Step of Python `str.replace`: replace `pat` by `rep` where it matches. -/
def replace_step (pat rep : List Char) (s : List Char) :
    Option (List Char × List Char) :=
  if pat.isPrefixOf s then some (rep, s.drop pat.length) else none

/-- Python `s.replace(pat, rep)` (all occurrences, left to right,
non-overlapping, replacement not rescanned). -/
def py_replace (pat rep s : List Char) : List Char :=
  scanFuel (replace_step pat rep) (s.length + 1) s

/-- Python `s.replace(pat, rep, 1)` (first occurrence only). -/
def py_replace1 (pat rep : List Char) : List Char → List Char
  | [] => if pat.isPrefixOf ([] : List Char) then rep else []
  | c :: s' =>
    if pat.isPrefixOf (c :: s') then rep ++ (c :: s').drop pat.length
    else c :: py_replace1 pat rep s'

/-- Python `s.split(pat, 1)` after a successful `pat in s` test; when the
pattern does not occur (never the case at the call sites, which guard with
`in`) the whole string is returned as the first component. -/
def split1 (pat s : List Char) : List Char × List Char :=
  match findSplit? pat s with
  | some pr => pr
  | none => (s, [])

/-- Python `s.split(pat)` (all occurrences), via fuel (each split consumes
at least one character of the remainder). -/
def py_split_allF (pat : List Char) : Nat → List Char → List (List Char)
  | 0, s => [s]
  | fuel + 1, s =>
    match findSplit? pat s with
    | some (pre, post) => pre :: py_split_allF pat fuel post
    | none => [s]

def py_split_all (pat s : List Char) : List (List Char) :=
  py_split_allF pat (s.length + 1) s

/-- Python `s.split(ch)` for a single-character separator. -/
def splitChar (ch : Char) : List Char → List (List Char)
  | [] => [[]]
  | c :: s =>
    match splitChar ch s with
    | x :: xs => if c = ch then [] :: x :: xs else (c :: x) :: xs
    | [] => [[]]

/-- Python `sep.join(parts)`. -/
def py_join (sep : List Char) : List (List Char) → List Char
  | [] => []
  | [x] => x
  | x :: xs => x ++ sep ++ py_join sep xs

/-- Python `s.count(pat)` (non-overlapping substring count). -/
def py_countF (pat : List Char) : Nat → List Char → Nat
  | 0, _ => 0
  | _ + 1, [] => 0
  | fuel + 1, c :: s' =>
    if pat.isPrefixOf (c :: s') then 1 + py_countF pat fuel ((c :: s').drop pat.length)
    else py_countF pat fuel s'

def py_count (pat s : List Char) : Nat := py_countF pat (s.length + 1) s

/-- Python `s.lstrip(set)`: drop leading characters belonging to `set`. -/
def py_lstrip_any (set s : List Char) : List Char :=
  s.dropWhile (fun c => set.contains c)

/-- Python `html.escape(s, quote=True)`: the source's exact chain of
`str.replace` calls (`&` first, then `<`, `>`, `"`, `'`). -/
def html_escape (s : List Char) : List Char :=
  let s := py_replace (chars "&") (chars "&amp;") s
  let s := py_replace (chars "<") (chars "&lt;") s
  let s := py_replace (chars ">") (chars "&gt;") s
  let s := py_replace (chars "\"") (chars "&quot;") s
  py_replace (chars "\x27") (chars "&#x27;") s

/-- Decimal digits of a number, as Python `str(n)` / f-string interpolation. -/
def natStr (n : Nat) : List Char := Nat.toDigits 10 n

/-- The internal placeholder `__PLANTEXT_{i}__` used by `parse_inline`. -/
def marker (i : Nat) : List Char :=
  chars "__PLANTEXT_" ++ natStr i ++ chars "__"

/-- A parameter value in the block-directive parameter dict: either a string
from a `key=value` line or the list of table rows under `_table_data`. -/
inductive PVal where
  | s (v : List Char)
  | rows (v : List (List (List Char)))
deriving DecidableEq

/-- The Python exceptions that can escape the render call, plus exhaustion of
the recursion fuel that models Python's unbounded template recursion. -/
inductive PyErr where
  | typeError
  | attributeError
  | fuelOut
deriving DecidableEq

/-- Rendering context: the template store (reloaded per render and constant
during one render), the current page title, the `<time>` timestamp string and
the Python `hash` function (not deterministic across runs, hence abstract). -/
structure Env where
  templates : List (List Char × List Char)
  title : List Char
  timeStr : List Char
  hashF : List Char → Nat

/-- First-match association-list lookup (Python dict lookup). -/
def lookupA {α : Type} : List (List Char × α) → List Char → Option α
  | [], _ => none
  | (k, v) :: rest, n => if k == n then some v else lookupA rest n

/-- Python dict assignment `d[k] = v`: overwrite in place, else append. -/
def upsert {α : Type} : List (List Char × α) → List Char → α → List (List Char × α)
  | [], k, v => [(k, v)]
  | (k', v') :: rest, k, v =>
    if k' == k then (k', v) :: rest else (k', v') :: upsert rest k v

/-- String value of a parameter with a default (Python `params.get(k, d)`).
The `rows` case is unreachable at the call sites (the parser stores a row
list only under `_table_data`, which these call sites never read). -/
def getStrD (params : List (List Char × PVal)) (k dflt : List Char) : List Char :=
  match lookupA params k with
  | some (PVal.s v) => v
  | some (PVal.rows _) => []
  | none => dflt

/-! ### Inline engine (`TxPyWikiParser.parse_inline`) -/

/-- Step of `re.sub(op ⬝ (content) ⬝ cl, f, s)` for the non-greedy patterns of
the source: a match at the head of `s` takes the content up to the first
occurrence of `cl`, provided `valid` holds of it (emptiness / newline / class
constraints of the concrete regex); otherwise the scan advances one
character, as Python's regex engine does. -/
def tag_step (op cl : List Char) (valid : List Char → Bool)
    (f : List Char → List Char) (s : List Char) :
    Option (List Char × List Char) :=
  if op.isPrefixOf s then
    match findSplit? cl (s.drop op.length) with
    | some (mid, post) => if valid mid then some (f mid, post) else none
    | none => none
  else none

def py_sub (op cl : List Char) (valid : List Char → Bool)
    (f : List Char → List Char) (s : List Char) : List Char :=
  scanFuel (tag_step op cl valid f) (s.length + 1) s

/-- `re.finditer` for the `<plantext>(.*?)</plantext>` pattern: the list of
`(match.group(0), match.group(1))` pairs in scan order. -/
def py_findallAux (op cl : List Char) : Nat → List Char → List (List Char × List Char)
  | 0, _ => []
  | _ + 1, [] => []
  | fuel + 1, c :: s' =>
    if op.isPrefixOf (c :: s') then
      match findSplit? cl ((c :: s').drop op.length) with
      | some (mid, post) => (op ++ mid ++ cl, mid) :: py_findallAux op cl fuel post
      | none => py_findallAux op cl fuel s'
    else py_findallAux op cl fuel s'

def py_findall (op cl s : List Char) : List (List Char × List Char) :=
  py_findallAux op cl (s.length + 1) s

/-- content constraint of `(.*?)` without `re.DOTALL`: no newline. -/
def noNl (mid : List Char) : Bool := !mid.contains '\n'

/-- content constraint of `(.*?)` with `re.DOTALL`: anything. -/
def anyMid (_ : List Char) : Bool := true

/-- content constraint of `([^)]+)` against a one-character closer: the first
occurrence of the closer bounds the content, so only nonemptiness remains. -/
def nonEmptyMid (mid : List Char) : Bool := !mid.isEmpty

/-- content constraint of `([^}]+)` against the two-character closer: the
content must be nonempty and free of the closing brace character itself. -/
def extMid (mid : List Char) : Bool := !mid.isEmpty && !mid.contains (Char.ofNat 125)

/-- replacement of `page_link_repl` (source lines 295-303). -/
def page_link_repl (mid : List Char) : List Char :=
  if hasSub mid (chars "\\\\") then
    let (p, d) := split1 (chars "\\\\") mid
    chars "<a href=\"/wiki/" ++ p ++ chars "\">" ++ d ++ chars "</a>"
  else if hasSub mid (chars "\\") then
    let (p, d) := split1 (chars "\\") mid
    chars "<a href=\"/wiki/" ++ p ++ chars "\">" ++ d ++ chars "</a>"
  else
    chars "<a href=\"/wiki/" ++ mid ++ chars "\">" ++ mid ++ chars "</a>"

/-- replacement of `github_link_repl` (source lines 306-314). -/
def github_link_repl (mid : List Char) : List Char :=
  if hasSub mid (chars "\\\\") then
    let (r, d) := split1 (chars "\\\\") mid
    chars "<a href=\"https://github.com/" ++ r ++ chars "\" target=\"_blank\">" ++ d ++ chars "</a>"
  else if hasSub mid (chars "\\") then
    let (r, d) := split1 (chars "\\") mid
    chars "<a href=\"https://github.com/" ++ r ++ chars "\" target=\"_blank\">" ++ d ++ chars "</a>"
  else
    chars "<a href=\"https://github.com/" ++ mid ++ chars "\" target=\"_blank\">" ++ mid ++ chars "</a>"

/-- replacement of `ghp_repl` (source lines 317-330): `split(':')` must give
exactly two parts (tuple unpacking), otherwise the `except` branch yields the
inline error string. -/
def ghp_repl (mid : List Char) : List Char :=
  match py_split_all (chars ":") mid with
  | [user, page] =>
    chars "\n                <div class=\"ghp-container\">\n                    <iframe src=\"https://" ++
    user ++ chars ".github.io/" ++ page ++
    chars "\" \n                            width=\"100%\" \n                            height=\"600\"\n                            frameborder=\"0\"\n                            allowfullscreen></iframe>\n                </div>\n                "
  | _ => chars "[GitHub Pages嵌入错误: " ++ mid ++ chars "]"

/-- whether a URL already carries a scheme (`startswith(('http://', 'https://'))`). -/
def hasScheme (u : List Char) : Bool :=
  (chars "http://").isPrefixOf u || (chars "https://").isPrefixOf u

def withScheme (u : List Char) : List Char :=
  if hasScheme u then u else chars "https://" ++ u

/-- replacement of `ext_link_repl` (source lines 333-348). -/
def ext_link_repl (mid : List Char) : List Char :=
  if hasSub mid (chars "\\\\") then
    let (u, d) := split1 (chars "\\\\") mid
    chars "<a href=\"" ++ withScheme u ++ chars "\" target=\"_blank\" rel=\"noopener noreferrer\">" ++ d ++ chars "</a>"
  else if hasSub mid (chars "\\") then
    let (u, d) := split1 (chars "\\") mid
    chars "<a href=\"" ++ withScheme u ++ chars "\" target=\"_blank\" rel=\"noopener noreferrer\">" ++ d ++ chars "</a>"
  else
    chars "<a href=\"" ++ withScheme mid ++ chars "\" target=\"_blank\" rel=\"noopener noreferrer\">" ++ withScheme mid ++ chars "</a>"

/-- replacement of `redirect_repl` (source lines 290-292). -/
def redirect_out (t : List Char) : List Char :=
  chars "<script>window.location.href = \"/wiki/" ++ t ++
  chars "\";</script><p>正在重定向到: <a href=\"/wiki/" ++ t ++
  chars "\">" ++ t ++ chars "</a></p>"

/-- scan for the first `]]]` while accumulating a nonempty, newline-free
content for the lazy `(.+?)` of the redirect pattern. -/
def rd_scan : List Char → List Char → Option (List Char × List Char)
  | _, [] => none
  | acc, c :: s' =>
    if (chars "]]]").isPrefixOf (c :: s') then some (acc.reverse, (c :: s').drop 3)
    else if c = '\n' then none
    else rd_scan (c :: acc) s'

/-- content of `(.+?)]]]`: at least one character, newline-free, ended by the
first reachable `]]]`. -/
def rd_findClose : List Char → Option (List Char × List Char)
  | [] => none
  | c :: s' => if c = '\n' then none else rd_scan [c] s'

/-- backtracking of the greedy `\s+` of the redirect pattern, from the longest
whitespace run downwards. -/
def rd_try (rest : List Char) : Nat → Option (List Char × List Char)
  | 0 => none
  | w + 1 =>
    match rd_findClose (rest.drop (w + 1)) with
    | some r => some r
    | none => rd_try rest w

/-- step of `re.sub(r'\[\[\[RD\s+(.+?)\]\]\]', redirect_repl, text)`. -/
def rd_step (s : List Char) : Option (List Char × List Char) :=
  if (chars "[[[RD").isPrefixOf s then
    let rest := s.drop 5
    match rd_try rest ((rest.takeWhile isPySpace).length) with
    | some (grp, rem) => some (redirect_out (py_strip grp), rem)
    | none => none
  else none

def redirect_sub (s : List Char) : List Char := scanFuel rd_step (s.length + 1) s

/-- `TxPyWikiParser.parse_inline` (source lines 264-363): extract the
`<plantext>` spans, run the fixed chain of rewrite rules, then restore the
spans HTML-escaped. -/
def parse_inline (env : Env) (text0 : List Char) : List Char :=
  let ms := py_findall (chars "<plantext>") (chars "</plantext>") text0
  let contents := ms.map Prod.snd
  let t := ms.enum.foldl (fun t p => py_replace1 p.2.1 (marker p.1) t) text0
  let t := py_replace (chars "<br>") (chars "<br>") t
  let t := py_sub (chars "<small>") (chars "</small>") noNl
    (fun m => chars "<small>" ++ m ++ chars "</small>") t
  let t := py_sub (chars "<big>") (chars "</big>") noNl
    (fun m => chars "<big>" ++ m ++ chars "</big>") t
  let t := py_sub (chars "/*") (chars "*/") anyMid (fun _ => []) t
  let t := redirect_sub t
  let t := py_sub (chars "(") (chars ")") nonEmptyMid page_link_repl t
  let t := py_sub (chars "(github:") (chars ")") nonEmptyMid github_link_repl t
  let t := py_sub (chars "(ghp:") (chars ")") nonEmptyMid ghp_repl t
  let t := py_sub (chars "\x7b\x7b") (chars "\x7d\x7d") extMid ext_link_repl t
  let t := py_sub (chars "<up>") (chars "</up>") noNl
    (fun m => chars "<sup>" ++ m ++ chars "</sup>") t
  let t := py_sub (chars "<dn>") (chars "</dn>") noNl
    (fun m => chars "<sub>" ++ m ++ chars "</sub>") t
  let t := py_replace (chars "<pagename>") env.title t
  let t := py_replace (chars "<time>") env.timeStr t
  contents.enum.foldl (fun t p => py_replace (marker p.1) (html_escape p.2) t) t

/-- `TxPyWikiParser.parse_headers` (source lines 256-262): note that the
level is `line.count('+')`, the count of all `+` characters of the line. -/
def parse_headers (env : Env) (line : List Char) : Option (List Char) :=
  if (chars "+").isPrefixOf line then
    let level := py_count (chars "+") line
    let text := py_strip (py_lstrip_any (chars "+") line)
    if 1 ≤ level && level ≤ 4 then
      some (chars "<h" ++ natStr level ++ chars ">" ++ parse_inline env text ++
            chars "</h" ++ natStr level ++ chars ">")
    else none
  else none

/-! ### Special-tag post-processor (`TxPyWikiParser.parse_special_tags`) -/

/-- replacement of `style_repl` (source line 500). -/
def style_out (m : List Char) : List Char := chars "<style>" ++ m ++ chars "</style>"

/-- replacement of `script_repl` (source lines 503-515), whitespace exactly
as in the triple-quoted f-string of the source. -/
def script_out (m : List Char) : List Char :=
  chars "\n            <div class=\"script-container\">\n                <button class=\"script-run-btn\" onclick=\"runScript(this)\">运行脚本</button>\n                <div class=\"script-output\" style=\"display:none;\">\n                    <iframe sandbox=\"allow-scripts\" \n                            srcdoc=\"<!DOCTYPE html><html><head><script>" ++
  html_escape m ++
  chars "</script></head><body></body></html>\"\n                            width=\"100%\" \n                            height=\"200\"></iframe>\n                </div>\n            </div>\n            "

/-- replacement of `iframe_repl` (source lines 518-528). -/
def iframe_out (src : List Char) : List Char :=
  chars "\n            <div class=\"iframe-container\">\n                <iframe src=\"" ++
  src ++
  chars "\" \n                        width=\"100%\" \n                        height=\"500\"\n                        frameborder=\"0\"\n                        allowfullscreen></iframe>\n            </div>\n            "

/-- step of `re.sub(r'<iframe src="([^"]+)">.*?</iframe>', ..., re.DOTALL)`:
literal opener, nonempty source up to the first quote, an immediate `>`,
then skip to the first `</iframe>`. -/
def iframe_step (s : List Char) : Option (List Char × List Char) :=
  if (chars "<iframe src=\"").isPrefixOf s then
    match findSplit? (chars "\"") (s.drop (chars "<iframe src=\"").length) with
    | some (src, post) =>
      if src.isEmpty then none
      else if (chars ">").isPrefixOf post then
        match findSplit? (chars "</iframe>") (post.drop 1) with
        | some (_, rem) => some (iframe_out src, rem)
        | none => none
      else none
    | none => none
  else none

/-- replacement of `img_repl` (source lines 531-533). -/
def img_out (src : List Char) : List Char :=
  chars "<img src=\"" ++ src ++ chars "\" class=\"wiki-image\">"

/-- step of `re.sub(r'<img src="([^"]+)">.*?</img>', ..., re.DOTALL)`. -/
def img_step (s : List Char) : Option (List Char × List Char) :=
  if (chars "<img src=\"").isPrefixOf s then
    match findSplit? (chars "\"") (s.drop (chars "<img src=\"").length) with
    | some (src, post) =>
      if src.isEmpty then none
      else if (chars ">").isPrefixOf post then
        match findSplit? (chars "</img>") (post.drop 1) with
        | some (_, rem) => some (img_out src, rem)
        | none => none
      else none
    | none => none
  else none

/-- a gap between `<button` and `"touchEvent"="` is admissible when it splits
into a newline-free `(.*?)` part followed by a `\s*` whitespace run, i.e.
when the gap with its trailing whitespace removed is newline-free. -/
def gapValid (gap : List Char) : Bool := !(py_rstrip gap).contains '\n'

/-- find the first occurrence of `"touchEvent"="` whose preceding gap is
admissible, returning the gap and the text after the literal. -/
def btnAux : List Char → List Char → Option (List Char × List Char)
  | _, [] => none
  | acc, c :: s' =>
    if (chars "\"touchEvent\"=\"").isPrefixOf (c :: s') then
      if gapValid acc.reverse then
        some (acc.reverse, (c :: s').drop (chars "\"touchEvent\"=\"").length)
      else btnAux (c :: acc) s'
    else btnAux (c :: acc) s'

/-- `re.search(r'style="([^"]*)"', attrs)` of `button_repl`: the style
attribute value, or empty when absent. -/
def btn_style (attrs : List Char) : List Char :=
  match findSplit? (chars "style=\"") attrs with
  | some (_, post) =>
    match findSplit? (chars "\"") post with
    | some (sty, _) => sty
    | none => []
  | none => []

/-- replacement of `button_repl` (source lines 536-555). -/
def button_out (env : Env) (attrs touch btxt : List Char) : List Char :=
  let sty := btn_style attrs
  let bid := chars "btn_" ++ natStr (env.hashF (btxt ++ touch) % 10000)
  chars "\n            <button id=\"" ++ bid ++ chars "\" class=\"wiki-button\" style=\"" ++ sty ++
  chars "\">" ++ btxt ++
  chars "</button>\n            <script>\n                document.getElementById(\x27" ++ bid ++
  chars "\x27).addEventListener(\x27click\x27, function() \x7b\n                    var output = document.createElement(\x27div\x27);\n                    output.className = \x27button-output\x27;\n                    output.innerHTML = \x60" ++
  parse_inline env touch ++
  chars "\x60;\n                    this.parentNode.insertBefore(output, this.nextSibling);\n                \x7d);\n            </script>\n            "

/-- step of `re.sub(r'<button(.*?)\s*"touchEvent"="([^"]*)"[^>]*>(.*?)</button>', ...)`
(no DOTALL: groups 1 and 3 must be newline-free, `\s*` may span newlines). -/
def button_step (env : Env) (s : List Char) : Option (List Char × List Char) :=
  if (chars "<button").isPrefixOf s then
    match btnAux [] (s.drop (chars "<button").length) with
    | some (gap, afterTE) =>
      let attrs := py_rstrip gap
      match findSplit? (chars "\"") afterTE with
      | some (touch, post2) =>
        match findSplit? (chars ">") post2 with
        | some (_, post3) =>
          match findSplit? (chars "</button>") post3 with
          | some (btxt, rem) =>
            if btxt.contains '\n' then none
            else some (button_out env attrs touch btxt, rem)
          | none => none
        | none => none
      | none => none
    | none => none
  else none

/-- replacement of `code_repl` (source lines 558-562). -/
def code_out (lang cc : List Char) : List Char :=
  chars "<pre><code class=\"language-" ++ lang ++ chars "\">" ++ html_escape cc ++
  chars "</code></pre>"

/-- step of `re.sub(r'<code lang="([^"]*)">(.*?)</code>', ..., re.DOTALL)`. -/
def code_step (s : List Char) : Option (List Char × List Char) :=
  if (chars "<code lang=\"").isPrefixOf s then
    match findSplit? (chars "\"") (s.drop (chars "<code lang=\"").length) with
    | some (lang, post) =>
      if (chars ">").isPrefixOf post then
        match findSplit? (chars "</code>") (post.drop 1) with
        | some (cc, rem) => some (code_out lang cc, rem)
        | none => none
      else none
    | none => none
  else none

/-- replacement of `co_repl` (source lines 565-575). -/
def co_out (env : Env) (content : List Char) : List Char :=
  let cid := chars "co_" ++ natStr (env.hashF content % 10000)
  chars "\n            <div class=\"collapsible\">\n                <button class=\"collapsible-btn\" onclick=\"toggleCollapse(\x27" ++
  cid ++
  chars "\x27)\">显示/隐藏内容</button>\n                <div id=\"" ++ cid ++
  chars "\" class=\"collapsible-content\">\n                    " ++
  parse_inline env content ++
  chars "\n                </div>\n            </div>\n            "

/-- replacement of `mw_repl` (source lines 578-580). -/
def mw_out (m : List Char) : List Char :=
  chars "<div class=\"mw-content\">" ++ html_escape m ++ chars "</div>"

/-- `TxPyWikiParser.parse_special_tags` (source lines 498-585): the fixed,
ordered chain of post-processing rules over the assembled fragment. -/
def parse_special_tags (env : Env) (t0 : List Char) : List Char :=
  let t := py_sub (chars "<style>") (chars "</style>") anyMid style_out t0
  let t := py_sub (chars "<script>") (chars "</script>") anyMid script_out t
  let t := scanFuel iframe_step (t.length + 1) t
  let t := scanFuel img_step (t.length + 1) t
  let t := scanFuel (button_step env) (t.length + 1) t
  let t := scanFuel code_step (t.length + 1) t
  let t := py_sub (chars "<co>") (chars "</co>") anyMid (co_out env) t
  let t := py_sub (chars "<mw>") (chars "</mw>") anyMid mw_out t
  py_sub (chars "<doc>") (chars "</doc>") anyMid (fun _ => []) t

/-! ### Block/template engine -/

/-- ASCII word character (`\w` of the source's `re.match(r'\[(\w+)(.*?)\]')`;
the source only ever uses ASCII directive names). -/
def isWordChar (c : Char) : Bool := c.isAlphanum || c = '_'

/-- `re.match(r'\[(\w+)(.*?)\]', content, re.DOTALL)`: anchored at the start,
a maximal word run after `[`, then the lazy remainder up to the first `]`. -/
def block_match (s : List Char) : Option (List Char × List Char) :=
  match s with
  | [] => none
  | c :: rest =>
    if c = '[' then
      let name := rest.takeWhile isWordChar
      if name.isEmpty then none
      else
        match findSplit? (chars "]") (rest.drop name.length) with
        | some (mid, _) => some (name, mid)
        | none => none
    else none

/-- one body line of a block directive (source lines 383-390): a `key=value`
parameter line, or a `\\`-separated table-row line appended under
`_table_data`.  When `_table_data` already holds a string (assigned by an
earlier `_table_data=...` line), Python's `.append` on a `str` raises
`AttributeError`. -/
def param_step (ps : List (List Char × PVal)) (line : List Char) :
    Except PyErr (List (List Char × PVal)) :=
  if hasSub line (chars "=") then
    let (k, v) := split1 (chars "=") line
    .ok (upsert ps (py_strip k) (PVal.s (py_strip v)))
  else if !line.isEmpty && hasSub line (chars "\\\\") then
    match lookupA ps (chars "_table_data") with
    | some (PVal.rows rs) =>
      .ok (upsert ps (chars "_table_data")
        (PVal.rows (rs ++ [py_split_all (chars "\\\\") line])))
    | some (PVal.s _) => .error .attributeError
    | none =>
      .ok (upsert ps (chars "_table_data")
        (PVal.rows [py_split_all (chars "\\\\") line]))
  else .ok ps

def parse_params (paramsText : List Char) : Except PyErr (List (List Char × PVal)) :=
  (splitChar '\n' paramsText).foldlM param_step []

/-- String content of a parameter value; the `rows` case is unreachable at
the call sites (Python would raise on them, but the parser stores a row
list only under the key `_table_data`, which those sites never read). -/
def getS : PVal → List Char
  | PVal.s v => v
  | PVal.rows _ => []

/-- `TxPyWikiParser.generate_table` (source lines 411-440).  A string value
under `_table_data` (possible via a `_table_data=...` line) is iterated by
Python character-by-character; that behaviour is mirrored by turning each
character into a one-cell row. -/
def generate_table (env : Env) (params : List (List Char × PVal)) : List Char :=
  match lookupA params (chars "_table_data") with
  | none => []
  | some v =>
    let data : List (List (List Char)) :=
      match v with
      | PVal.rows rs => rs
      | PVal.s sv => sv.map (fun c => [[c]])
    match data with
    | [] => []
    | hrow :: rows =>
      let cap :=
        match lookupA params (chars "name") with
        | some pv => chars "<h4>" ++ html_escape (getS pv) ++ chars "</h4>"
        | none => []
      chars "<div class=\"wiki-table\">" ++ cap ++ chars "<table>" ++
      chars "<thead><tr>" ++
      hrow.foldl (fun a h => a ++ chars "<th>" ++ html_escape h ++ chars "</th>") [] ++
      chars "</tr></thead>" ++ chars "<tbody>" ++
      rows.foldl (fun a row =>
        a ++ chars "<tr>" ++
        row.foldl (fun b cell =>
          b ++ chars "<td>" ++ parse_inline env (html_escape cell) ++ chars "</td>") [] ++
        chars "</tr>") [] ++
      chars "</tbody>" ++ chars "</table></div>"

/-- one sub-group of `generate_navbox` (source lines 464-476). -/
def navbox_sub (env : Env) (params : List (List Char × PVal)) (i j : Nat) : List Char :=
  match lookupA params (chars "g" ++ natStr i ++ chars "." ++ natStr j) with
  | some sg =>
    chars "\n                        <div class=\"navbox-subgroup\">\n                            <div class=\"navbox-subgroup-title\">" ++
    getS sg ++
    chars "</div>\n                            <div class=\"navbox-subgroup-content\">\n                                " ++
    parse_inline env (getStrD params (chars "l" ++ natStr i ++ chars "." ++ natStr j) []) ++
    chars "\n                            </div>\n                        </div>\n                        "
  | none => []

/-- one group of `generate_navbox` (source lines 450-478). -/
def navbox_group (env : Env) (params : List (List Char × PVal)) (i : Nat) : List Char :=
  match lookupA params (chars "g" ++ natStr i) with
  | some g =>
    chars "\n                <div class=\"navbox-group\">\n                    <div class=\"navbox-group-title\" style=\"background:" ++
    getStrD params (chars "color2") (chars "#e8f2ff") ++
    chars "\">\n                        " ++ getS g ++
    chars "\n                    </div>\n                    <div class=\"navbox-content\">\n                        " ++
    parse_inline env (getStrD params (chars "l" ++ natStr i) []) ++
    chars "\n                " ++
    (List.range' 1 2).foldl (fun a j => a ++ navbox_sub env params i j) [] ++
    chars "</div></div>"
  | none => []

/-- `TxPyWikiParser.generate_navbox` (source lines 442-481). -/
def generate_navbox (env : Env) (params : List (List Char × PVal)) : List Char :=
  chars "\n        <div class=\"navbox\">\n            <div class=\"navbox-title\" style=\"background:" ++
  getStrD params (chars "color") (chars "#cfe3ff") ++
  chars "\">\n                <span>" ++ getStrD params (chars "name") (chars "导航") ++
  chars "</span>\n            </div>\n        " ++
  (List.range' 1 10).foldl (fun a i => a ++ navbox_group env params i) [] ++
  chars "</div>"

/-- `TxPyWikiParser.handle_file` (source lines 405-409). -/
def handle_file (params : List (List Char × PVal)) : List Char :=
  match lookupA params (chars "name") with
  | some pv =>
    chars "<a href=\"/wiki/files/" ++ getS pv ++ chars "\" class=\"file-link\">" ++
    getS pv ++ chars "</a>"
  | none => chars "[文件参数缺失]"

/-- positional-parameter pass of `process_custom_template` (source
lines 492-494): substitute `<;1;>` .. `<;9;>` still present after the named
substitutions. -/
def positional_subst (params : List (List Char × PVal)) (content : List Char) : List Char :=
  (List.range' 1 9).foldl (fun c i =>
    let tok := chars "<;" ++ natStr i ++ chars ";>"
    if hasSub c tok then py_replace tok (getStrD params (natStr i) []) c else c) content

/-- `TxPyWikiParser.process_custom_template` (source lines 483-496).  The
named substitution loop calls `str.replace` with the parameter value as
second argument; when that value is the `_table_data` row list, Python
raises `TypeError`.  `recur` is the recursive call to `parse_to_html`
(Python's unbounded recursion, made explicit through fuel). -/
def process_custom_template (env : Env)
    (recur : List Char → Except PyErr (List Char))
    (name : List Char) (params : List (List Char × PVal)) :
    Except PyErr (List Char) :=
  match lookupA env.templates name with
  | none => .ok (chars "[模板 " ++ name ++ chars " 未找到]")
  | some body =>
    (params.foldlM (fun c (kv : List Char × PVal) =>
        match kv.2 with
        | PVal.s sv =>
          Except.ok (py_replace (chars "<;" ++ kv.1 ++ chars ";>") sv c)
        | PVal.rows _ => Except.error PyErr.typeError) body).bind
      (fun c => recur (positional_subst params c))

/-- `TxPyWikiParser.parse_template` (source lines 365-403), relative to the
remaining lines `ls` (the Python code passes the full list plus the start
index; only the suffix from the start index is ever inspected).  Returns
`none` when the line is not a block opener, otherwise the produced fragment
together with `template_end - start_idx` (the caller resumes after it). -/
def parse_template (env : Env) (recur : List Char → Except PyErr (List Char))
    (ls : List (List Char)) : Except PyErr (Option (List Char × Nat)) :=
  match ls with
  | [] => .ok none
  | line :: _ =>
    if (chars "[").isPrefixOf line && !(chars "[[").isPrefixOf line then
      let endRel := (ls.findIdx? (fun l => py_strip l == chars "]")).getD 0
      let content := py_join (chars "\n") (ls.take (endRel + 1))
      match block_match content with
      | some (name, paramsText) =>
        match parse_params (py_strip paramsText) with
        | .error e => .error e
        | .ok params =>
          if name == chars "table" then .ok (some (generate_table env params, endRel))
          else if name == chars "navbox" then .ok (some (generate_navbox env params, endRel))
          else if name == chars "file" then .ok (some (handle_file params, endRel))
          else
            match lookupA env.templates name with
            | some _ =>
              (process_custom_template env recur name params).map (fun r => some (r, endRel))
            | none => .ok (some (content, endRel))
      | none => .ok (some (content, endRel))
    else .ok none

/-- the per-line loop of `parse_to_html` (source lines 597-619): blank lines
emit the empty string, headers and blocks are dispatched, anything else is
inline-parsed and paragraph-wrapped.  The fuel is seeded above the number of
lines, and every step consumes at least one line. -/
def render_lines (env : Env) (recur : List Char → Except PyErr (List Char)) :
    Nat → List (List Char) → Except PyErr (List (List Char))
  | _, [] => .ok []
  | 0, _ :: _ => .ok []
  | fuel + 1, l :: rest =>
    let line := py_rstrip l
    if (py_strip line).isEmpty then
      (render_lines env recur fuel rest).map (fun os => ([] : List Char) :: os)
    else
      match parse_headers env line with
      | some h => (render_lines env recur fuel rest).map (fun os => h :: os)
      | none =>
        match parse_template env recur (l :: rest) with
        | .error e => .error e
        | .ok (some (out, endRel)) =>
          (render_lines env recur fuel ((l :: rest).drop (endRel + 1))).map
            (fun os => out :: os)
        | .ok none =>
          (render_lines env recur fuel rest).map
            (fun os => (chars "<p>" ++ parse_inline env line ++ chars "</p>") :: os)

/-- `TxPyWikiParser.parse_to_html` (source lines 587-624): strip block
comments, split into lines, run the per-line loop, join with newlines and
post-process the special tags.  The fuel bounds the recursion depth of
custom-template expansion (Python has no bound and can only hit the host
stack limit, modelled by `PyErr.fuelOut`). -/
def parse_to_html (env : Env) : Nat → List Char → Except PyErr (List Char)
  | 0, _ => .error .fuelOut
  | fuel + 1, text =>
    let text := py_sub (chars "/*") (chars "*/") anyMid (fun _ => []) text
    let lines := splitChar '\n' text
    (render_lines env (parse_to_html env fuel) (lines.length + 1) lines).map
      (fun os => parse_special_tags env (py_join (chars "\n") os))


/-! ### Closed evaluations settling the concrete claims -/

/-- Decidable equality of render results, for closed evaluation of the
pipeline on concrete inputs. -/
instance : DecidableEq (Except PyErr (List Char)) :=
  fun a b =>
    match a, b with
    | .ok x, .ok y => if h : x = y then isTrue (by rw [h]) else isFalse (by simp [h])
    | .error x, .error y => if h : x = y then isTrue (by rw [h]) else isFalse (by simp [h])
    | .ok _, .error _ => isFalse (by simp)
    | .error _, .ok _ => isFalse (by simp)

/-- A fixed concrete environment (empty template store, empty page title,
empty timestamp, constant hash) for closed evaluations. -/
def env0 : Env := ⟨[], [], [], fun _ => 0⟩

/-- The concrete environment whose template store maps `MyTpl` to the body
`x`, exercising the custom-template path. -/
def envTpl : Env := ⟨[(chars "MyTpl", chars "x")], [], [], fun _ => 0⟩

/-- The concrete environment whose template store maps `MyTpl` to the body
`<;title;>`, as in the template-substitution claim. -/
def envT8 : Env := ⟨[(chars "MyTpl", chars "<;title;>")], [], [], fun _ => 0⟩

/-- C1 (counterexample): for the input `<plantext>\n+A\n</plantext>` — a
literal-text span whose content `X = "\n+A\n"` spans multiple lines with a
line beginning with `+` — the rendered fragment interprets `+A` as a rank-1
header and does not contain the HTML-escaping of `X` verbatim, refuting the
claim for multi-line spans: the pipeline splits into lines before the
inline engine ever sees the span. -/
theorem c1_counterexample :
    parse_to_html env0 1 (chars "<plantext>\n+A\n</plantext>")
      = .ok (chars "<p><plantext></p>\n<h1>A</h1>\n<p></plantext></p>")
    ∧ hasSub (chars "<p><plantext></p>\n<h1>A</h1>\n<p></plantext></p>")
        (chars "<h1>A</h1>") = true
    ∧ hasSub (chars "<p><plantext></p>\n<h1>A</h1>\n<p></plantext></p>")
        (html_escape (chars "\n+A\n")) = false := by
  decide

/-- C2: with a stored template `MyTpl`, the block `[MyTpl` / `A\\B` / `]`
stores the row list under `_table_data` and the named-substitution loop of
`process_custom_template` then calls `str.replace` with that list as second
argument, which raises `TypeError` out of `parse_to_html` — an exception
escapes the render call. -/
theorem c2_code_bug :
    parse_to_html envTpl 1 (chars "[MyTpl\nA\\\\B\n]") = .error .typeError := by
  decide

/-- C3 (counterexample): the line `+A+` has a leading `+` run of length 1,
so the claim demands a rank-1 heading with text `A+`; the code instead
counts all `+` characters (`line.count('+')` = 2) and renders `<h2>A+</h2>`. -/
theorem c3_counterexample :
    parse_to_html env0 1 (chars "+A+") = .ok (chars "<h2>A+</h2>")
    ∧ chars "<h2>A+</h2>" ≠ chars "<h1>A+</h1>" := by
  decide

/-- C4: the input `(github:owner/repo)` is consumed by the earlier page-link
rule `\(([^)]+)\)` of `parse_inline`, so the render yields an internal wiki
link `/wiki/github:owner/repo` and contains no `https://github.com` link at
all — the dedicated github rule is unreachable behind the page-link rule. -/
theorem c4_code_bug :
    parse_to_html env0 1 (chars "(github:owner/repo)")
      = .ok (chars "<p><a href=\"/wiki/github:owner/repo\">github:owner/repo</a></p>")
    ∧ hasSub (chars "<p><a href=\"/wiki/github:owner/repo\">github:owner/repo</a></p>")
        (chars "https://github.com") = false := by
  decide

/-- C5: both the well-formed `(ghp:user:page)` and the malformed
`(ghp:userpage)` are consumed by the earlier page-link rule of
`parse_inline`, so neither an embedded frame on `github.io` nor the
bracketed inline error string is ever produced — the ghp rule is
unreachable behind the page-link rule. -/
theorem c5_code_bug :
    parse_to_html env0 1 (chars "(ghp:user:page)")
      = .ok (chars "<p><a href=\"/wiki/ghp:user:page\">ghp:user:page</a></p>")
    ∧ parse_to_html env0 1 (chars "(ghp:userpage)")
      = .ok (chars "<p><a href=\"/wiki/ghp:userpage\">ghp:userpage</a></p>")
    ∧ hasSub (chars "<p><a href=\"/wiki/ghp:user:page\">ghp:user:page</a></p>")
        (chars "github.io") = false
    ∧ hasSub (chars "<p><a href=\"/wiki/ghp:userpage\">ghp:userpage</a></p>")
        (chars "嵌入错误") = false := by
  decide

/-- C6 (counterexample): the two-line block `[bogus x=1` / `]` with an
unknown directive name renders the raw captured slice verbatim — brackets
and the closing-bracket line included — not the bracket-stripped text
`bogus x=1` the claim demands. -/
theorem c6_counterexample :
    parse_to_html env0 1 (chars "[bogus x=1\n]") = .ok (chars "[bogus x=1\n]")
    ∧ chars "[bogus x=1\n]" ≠ chars "bogus x=1" := by
  decide

/-- C6 (amended): a block directive whose name matches no built-in generator
and no stored template, with its closing `]` line present, renders the raw
block slice verbatim (brackets and closing-bracket line included) rather
than failing. -/
theorem c6_amended :
    parse_to_html env0 1 (chars "[bogus x=1\n]") = .ok (chars "[bogus x=1\n]") := by
  decide

set_option maxRecDepth 40000 in
/-- C7: the `table` block with header row `A\\B` and body row `1\\2` renders
one header row of two `<th>` cells and one body row of two `<td>` cells; a
`name` parameter renders as an `<h4>` caption; header cells are HTML-escaped
but not inline-parsed while body cells are escaped and then inline-parsed
(the `(H)` header stays literal, the `(H)` body cell becomes a link, the `&`
cells are escaped); a table block with no row lines renders as the empty
string. -/
theorem c7_confirmed :
    parse_to_html env0 1 (chars "[table\nA\\\\B\n1\\\\2\n]")
      = .ok (chars "<div class=\"wiki-table\"><table><thead><tr><th>A</th><th>B</th></tr></thead><tbody><tr><td>1</td><td>2</td></tr></tbody></table></div>")
    ∧ parse_to_html env0 1 (chars "[table\nname=T\n(H)\\\\B\n(H)\\\\2\n]")
      = .ok (chars "<div class=\"wiki-table\"><h4>T</h4><table><thead><tr><th>(H)</th><th>B</th></tr></thead><tbody><tr><td><a href=\"/wiki/H\">H</a></td><td>2</td></tr></tbody></table></div>")
    ∧ parse_to_html env0 1 (chars "[table\nA&B\\\\C\nx&y\\\\2\n]")
      = .ok (chars "<div class=\"wiki-table\"><table><thead><tr><th>A&amp;B</th><th>C</th></tr></thead><tbody><tr><td>x&amp;y</td><td>2</td></tr></tbody></table></div>")
    ∧ parse_to_html env0 1 (chars "[table\nname=T\n]") = .ok [] := by
  decide

/-- C8: with the template store mapping `MyTpl` to the body `<;title;>`, the
block `[MyTpl` / `title=Hi` / `]` substitutes `Hi` into the placeholder and
renders the substituted body recursively through the whole pipeline with the
same page title — the render of the block equals the full pipeline render of
the literal text `Hi` (at the fuel level of the recursive call), and that
render is `<p>Hi</p>`. -/
theorem c8_confirmed :
    parse_to_html envT8 2 (chars "[MyTpl\ntitle=Hi\n]")
      = parse_to_html envT8 1 (chars "Hi")
    ∧ parse_to_html envT8 1 (chars "Hi") = .ok (chars "<p>Hi</p>") := by
  decide

/-- C9 (counterexample): the input `<plantext>[[[RD Home]]]</plantext>`
contains the redirect directive, yet the inline engine emits no script tag
at all (the directive is literal-text protected), refuting the claim's
universal quantification over inputs containing the directive. -/
theorem c9_counterexample :
    parse_to_html env0 1 (chars "<plantext>[[[RD Home]]]</plantext>")
      = .ok (chars "<p>[[[RD Home]]]</p>")
    ∧ hasSub (chars "<p>[[[RD Home]]]</p>") (chars "<script>") = false
    ∧ hasSub (chars "<p>[[[RD Home]]]</p>") (chars "script-run-btn") = false := by
  decide

/-- the rendered fragment of the unprotected redirect `[[[RD Home]]]`. -/
def rd_home_out : List Char :=
  chars "<p>\n            <div class=\"script-container\">\n                <button class=\"script-run-btn\" onclick=\"runScript(this)\">运行脚本</button>\n                <div class=\"script-output\" style=\"display:none;\">\n                    <iframe sandbox=\"allow-scripts\" \n                            srcdoc=\"<!DOCTYPE html><html><head><script>window.location.href = &quot;/wiki/Home&quot;;</script></head><body></body></html>\"\n                            width=\"100%\" \n                            height=\"200\"></iframe>\n                </div>\n            </div>\n            <p>正在重定向到: <a href=\"/wiki/Home\">Home</a></p></p>"

set_option maxRecDepth 40000 in
/-- C9 (amended): for the representative input `[[[RD Home]]]` with the
directive outside any protected span, the inline engine emits the literal
navigation script tag plus the visible fallback link; the post-processor's
script rule then matches that tag and wraps it into the manually-triggered
run-script disclosure with the script body HTML-escaped into the sandboxed
srcdoc attribute, and the final fragment no longer contains the bare
navigation script. -/
theorem c9_amended :
    parse_inline env0 (chars "[[[RD Home]]]")
      = chars "<script>window.location.href = \"/wiki/Home\";</script><p>正在重定向到: <a href=\"/wiki/Home\">Home</a></p>"
    ∧ parse_to_html env0 1 (chars "[[[RD Home]]]") = .ok rd_home_out
    ∧ hasSub rd_home_out
        (chars "<button class=\"script-run-btn\" onclick=\"runScript(this)\">运行脚本</button>")
      = true
    ∧ hasSub rd_home_out (html_escape (chars "window.location.href = \"/wiki/Home\";"))
      = true
    ∧ hasSub rd_home_out (chars "<script>window.location.href = \"/wiki/Home\";</script>")
      = false := by
  decide

/-- C10: an input line containing both the literal text `__PLANTEXT_0__` and
a `<plantext><b></plantext>` span: the restoration step replaces every
occurrence of the marker string, so the escaped span content `&lt;b&gt;`
appears at the position of the user's literal marker text as well, and the
literal marker text is gone from the output. -/
theorem c10_confirmed :
    parse_to_html env0 1 (chars "__PLANTEXT_0__ <plantext><b></plantext>")
      = .ok (chars "<p>&lt;b&gt; &lt;b&gt;</p>")
    ∧ hasSub (chars "<p>&lt;b&gt; &lt;b&gt;</p>") (marker 0) = false
    ∧ chars "<p>&lt;b&gt; &lt;b&gt;</p>"
      = chars "<p>" ++ html_escape (chars "<b>") ++ chars " " ++
        html_escape (chars "<b>") ++ chars "</p>" := by
  decide


/-! ### Generic lemmas about the string scanners -/

theorem isPrefixOf_iff_ex {p s : List Char} :
    p.isPrefixOf s = true ↔ ∃ t, s = p ++ t := by
  induction p generalizing s with
  | nil => simp [List.isPrefixOf]
  | cons a p ih =>
    cases s with
    | nil => simp [List.isPrefixOf]
    | cons c s' =>
      simp only [List.isPrefixOf, Bool.and_eq_true, beq_iff_eq, ih, List.cons_append,
        List.cons.injEq]
      constructor
      · rintro ⟨rfl, t, rfl⟩; exact ⟨t, rfl, rfl⟩
      · rintro ⟨t, rfl, rfl⟩; exact ⟨rfl, t, rfl⟩

theorem isPrefixOf_append_self (p t : List Char) : p.isPrefixOf (p ++ t) = true :=
  isPrefixOf_iff_ex.mpr ⟨t, rfl⟩

theorem isPrefixOf_self (p : List Char) : p.isPrefixOf p = true :=
  isPrefixOf_iff_ex.mpr ⟨[], (List.append_nil p).symm⟩

theorem hasSub_cons (c : Char) (s' pat : List Char) :
    hasSub (c :: s') pat = (pat.isPrefixOf (c :: s') || hasSub s' pat) := rfl

theorem hasSub_of_isPrefixOf {s pat : List Char} (h : pat.isPrefixOf s = true) :
    hasSub s pat = true := by
  cases s with
  | nil => cases pat with
    | nil => rfl
    | cons a p => simp [List.isPrefixOf] at h
  | cons c s' => simp [hasSub_cons, h]

theorem hasSub_false_parts {c : Char} {s' pat : List Char}
    (h : hasSub (c :: s') pat = false) :
    pat.isPrefixOf (c :: s') = false ∧ hasSub s' pat = false := by
  rw [hasSub_cons] at h
  exact ⟨by simpa using (Bool.or_eq_false_iff.mp h).1,
         (Bool.or_eq_false_iff.mp h).2⟩

/-- A scanner whose step requires `op` at the head leaves any text without
`op` unchanged, for every fuel. -/
theorem scanFuel_id (step : List Char → Option (List Char × List Char))
    (op : List Char)
    (hop : ∀ t, op.isPrefixOf t = false → step t = none) :
    ∀ fuel s, hasSub s op = false → scanFuel step fuel s = s := by
  intro fuel
  induction fuel with
  | zero => intro s _; rfl
  | succ n ih =>
    intro s hs
    cases s with
    | nil => rfl
    | cons c s' =>
      obtain ⟨h1, h2⟩ := hasSub_false_parts hs
      simp [scanFuel, hop _ h1, ih s' h2]

theorem py_sub_id (op cl : List Char) (valid : List Char → Bool)
    (f : List Char → List Char) (s : List Char) (h : hasSub s op = false) :
    py_sub op cl valid f s = s :=
  scanFuel_id _ op (fun t ht => by simp [tag_step, ht]) _ s h

theorem py_replace_id (pat rep s : List Char) (h : hasSub s pat = false) :
    py_replace pat rep s = s :=
  scanFuel_id _ pat (fun t ht => by simp [replace_step, ht]) _ s h

theorem redirect_sub_id (s : List Char) (h : hasSub s (chars "[[[RD") = false) :
    redirect_sub s = s :=
  scanFuel_id _ (chars "[[[RD") (fun t ht => by simp [rd_step, ht]) _ s h

theorem iframe_scan_id (s : List Char) (fuel : Nat)
    (h : hasSub s (chars "<iframe src=\"") = false) :
    scanFuel iframe_step fuel s = s :=
  scanFuel_id _ (chars "<iframe src=\"") (fun t ht => by simp [iframe_step, ht]) _ s h

theorem img_scan_id (s : List Char) (fuel : Nat)
    (h : hasSub s (chars "<img src=\"") = false) :
    scanFuel img_step fuel s = s :=
  scanFuel_id _ (chars "<img src=\"") (fun t ht => by simp [img_step, ht]) _ s h

theorem button_scan_id (env : Env) (s : List Char) (fuel : Nat)
    (h : hasSub s (chars "<button") = false) :
    scanFuel (button_step env) fuel s = s :=
  scanFuel_id _ (chars "<button") (fun t ht => by simp [button_step, ht]) _ s h

theorem code_scan_id (s : List Char) (fuel : Nat)
    (h : hasSub s (chars "<code lang=\"") = false) :
    scanFuel code_step fuel s = s :=
  scanFuel_id _ (chars "<code lang=\"") (fun t ht => by simp [code_step, ht]) _ s h

/-- The post-processor is the identity on a fragment containing none of its
nine trigger patterns. -/
theorem parse_special_tags_id (env : Env) (s : List Char)
    (h1 : hasSub s (chars "<style>") = false)
    (h2 : hasSub s (chars "<script>") = false)
    (h3 : hasSub s (chars "<iframe src=\"") = false)
    (h4 : hasSub s (chars "<img src=\"") = false)
    (h5 : hasSub s (chars "<button") = false)
    (h6 : hasSub s (chars "<code lang=\"") = false)
    (h7 : hasSub s (chars "<co>") = false)
    (h8 : hasSub s (chars "<mw>") = false)
    (h9 : hasSub s (chars "<doc>") = false) :
    parse_special_tags env s = s := by
  unfold parse_special_tags
  simp only [py_sub_id _ _ _ _ _ h1, py_sub_id _ _ _ _ _ h2, iframe_scan_id _ _ h3,
    img_scan_id _ _ h4, button_scan_id _ _ _ h5, code_scan_id _ _ h6,
    py_sub_id _ _ _ _ _ h7, py_sub_id _ _ _ _ _ h8, py_sub_id _ _ _ _ _ h9]


/-! ### Adjacent-pair reasoning for pattern non-occurrence -/

/-- Whether the adjacent pair `a, b` occurs somewhere in the text. -/
def twoSub (a b : Char) : List Char → Bool
  | [] => false
  | [_] => false
  | x :: y :: rest => (x == a && y == b) || twoSub a b (y :: rest)

theorem twoSub_tail {a b x : Char} {s : List Char}
    (h : twoSub a b (x :: s) = false) : twoSub a b s = false := by
  cases s with
  | nil => rfl
  | cons y s' =>
    simp only [twoSub, Bool.or_eq_false_iff] at h
    exact h.2

/-- An occurrence of a pattern starting with the pair `a, b` forces that
adjacent pair to occur in the text. -/
theorem hasSub_two {s : List Char} {a b : Char} {p : List Char}
    (h : hasSub s (a :: b :: p) = true) : twoSub a b s = true := by
  induction s with
  | nil => simp [hasSub, List.isPrefixOf] at h
  | cons c s' ih =>
    rw [hasSub_cons, Bool.or_eq_true] at h
    rcases h with h | h
    · obtain ⟨t, ht⟩ := isPrefixOf_iff_ex.mp h
      cases s' with
      | nil => simp at ht
      | cons d s'' =>
        simp only [List.cons_append, List.cons.injEq] at ht
        obtain ⟨rfl, rfl, _⟩ := ht
        simp [twoSub]
    · cases s' with
      | nil => simp [twoSub] at h ⊢; exact absurd h (by simp [hasSub, List.isPrefixOf])
      | cons d s'' => simp [twoSub, ih h]

theorem not_hasSub_of_two {s : List Char} {a b : Char} (p : List Char)
    (h : twoSub a b s = false) : hasSub s (a :: b :: p) = false := by
  cases hh : hasSub s (a :: b :: p) with
  | false => rfl
  | true => exact absurd (hasSub_two hh) (by simp [h])

/-- The pair `a, b` does not occur in a text free of `a`. -/
theorem twoSub_of_not_mem {a : Char} (b : Char) {s : List Char}
    (h : ∀ c ∈ s, c ≠ a) : twoSub a b s = false := by
  induction s with
  | nil => rfl
  | cons x s' ih =>
    cases s' with
    | nil => rfl
    | cons y s'' =>
      have hx : x ≠ a := h x (by simp)
      have : twoSub a b (y :: s'') = false := ih (fun c hc => h c (by simp [hc]))
      simp [twoSub, hx, this]

/-- Splitting an adjacent-pair search over an append: no pair in either part
and no pair straddling the boundary. -/
theorem twoSub_append_false {a b : Char} {u v : List Char}
    (hu : twoSub a b u = false) (hv : twoSub a b v = false)
    (hb : ¬(u.getLast? = some a ∧ v.head? = some b)) :
    twoSub a b (u ++ v) = false := by
  induction u with
  | nil => simpa using hv
  | cons x u' ih =>
    have hu' : twoSub a b u' = false := twoSub_tail hu
    cases u' with
    | nil =>
      cases v with
      | nil => rfl
      | cons y v' =>
        have hxy : ¬(x = a ∧ y = b) := by
          intro ⟨ha, hbv⟩
          exact hb ⟨by simp [ha], by simp [hbv]⟩
        have : (x == a && y == b) = false := by
          rcases Decidable.em (x = a) with h | h
          · rcases Decidable.em (y = b) with h2 | h2
            · exact absurd ⟨h, h2⟩ hxy
            · simp [h2]
          · simp [h]
        simp [twoSub, this, hv]
    | cons z u'' =>
      have hb' : ¬((z :: u'').getLast? = some a ∧ v.head? = some b) := by
        intro ⟨h1, h2⟩
        exact hb ⟨by simpa [List.getLast?_cons_cons] using h1, h2⟩
      have tail : twoSub a b ((z :: u'') ++ v) = false := ih hu' hb'
      have hxz : (x == a && z == b) = false := by
        have : twoSub a b (x :: z :: u'') = false := hu
        simp only [twoSub, Bool.or_eq_false_iff] at this
        exact this.1
      simp only [List.cons_append] at tail ⊢
      simp [twoSub, hxz, tail]

/-- A two-character pattern occurs exactly when its adjacent pair does. -/
theorem hasSub_pair (a b : Char) (s : List Char) :
    hasSub s [a, b] = twoSub a b s := by
  induction s with
  | nil => rfl
  | cons c s' ih =>
    cases s' with
    | nil => simp [hasSub, List.isPrefixOf, twoSub]
    | cons d s'' =>
      rw [hasSub_cons, ih]
      have hbd : ∀ x y : Char, (x == y) = (y == x) := by
        intro x y
        by_cases h : x = y
        · simp [h]
        · simp [h, Ne.symm h]
      simp [List.isPrefixOf, twoSub, hbd b d, hbd a c]


/-! ### Character-wise characterization of the HTML escaper -/

/-- Character-by-character rewriting (the shape of a single-character
`str.replace` pass). -/
def escWith (f : Char → List Char) : List Char → List Char
  | [] => []
  | c :: s => f c ++ escWith f s

theorem escWith_append (f : Char → List Char) :
    ∀ u v, escWith f (u ++ v) = escWith f u ++ escWith f v := by
  intro u v
  induction u with
  | nil => rfl
  | cons c u' ih => simp [escWith, ih]

theorem escWith_escWith (f g : Char → List Char) :
    ∀ s, escWith g (escWith f s) = escWith (fun c => escWith g (f c)) s := by
  intro s
  induction s with
  | nil => rfl
  | cons c s' ih => simp [escWith, escWith_append, ih]

theorem escWith_congr {f g : Char → List Char} (h : ∀ c, f c = g c) :
    ∀ s, escWith f s = escWith g s := by
  intro s
  induction s with
  | nil => rfl
  | cons c s' ih => simp [escWith, h c, ih]

theorem mem_escWith {f : Char → List Char} {c : Char} {s : List Char}
    (h : c ∈ escWith f s) : ∃ d ∈ s, c ∈ f d := by
  induction s with
  | nil => simp [escWith] at h
  | cons d s' ih =>
    simp only [escWith, List.mem_append] at h
    rcases h with h | h
    · exact ⟨d, by simp, h⟩
    · obtain ⟨e, he, hc⟩ := ih h
      exact ⟨e, by simp [he], hc⟩

/-- A single-character `str.replace` is a character-wise rewrite. -/
theorem scanFuel_single (a : Char) (r : List Char) :
    ∀ fuel s, s.length < fuel →
      scanFuel (replace_step [a] r) fuel s
        = escWith (fun c => if c = a then r else [c]) s := by
  intro fuel
  induction fuel with
  | zero => intro s h; omega
  | succ n ih =>
    intro s h
    cases s with
    | nil => rfl
    | cons c s' =>
      have hlen : s'.length < n := by simpa using h
      by_cases hc : c = a
      · subst hc
        have hpre : ([c]).isPrefixOf (c :: s') = true := by simp [List.isPrefixOf]
        simp [scanFuel, replace_step, hpre, escWith, ih s' hlen]
      · have hpre : ([a]).isPrefixOf (c :: s') = false := by
          simp [List.isPrefixOf]
          exact fun h' => absurd h'.symm hc
        simp [scanFuel, replace_step, hpre, escWith, hc, ih s' hlen]

theorem py_replace_single (a : Char) (r s : List Char) :
    py_replace [a] r s = escWith (fun c => if c = a then r else [c]) s :=
  scanFuel_single a r (s.length + 1) s (by omega)

/-- The character-wise specification of `html.escape(s, quote=True)`. -/
def escChar (c : Char) : List Char :=
  if c = '&' then chars "&amp;"
  else if c = '<' then chars "&lt;"
  else if c = '>' then chars "&gt;"
  else if c = '"' then chars "&quot;"
  else if c = Char.ofNat 39 then chars "&#x27;"
  else [c]

theorem html_escape_eq (s : List Char) : html_escape s = escWith escChar s := by
  unfold html_escape
  have e1 : chars "&" = ['&'] := rfl
  have e2 : chars "<" = ['<'] := rfl
  have e3 : chars ">" = ['>'] := rfl
  have e4 : chars "\"" = ['"'] := rfl
  have e5 : chars "\x27" = [Char.ofNat 39] := rfl
  rw [e1, e2, e3, e4, e5, py_replace_single, py_replace_single, py_replace_single,
    py_replace_single, py_replace_single, escWith_escWith, escWith_escWith,
    escWith_escWith, escWith_escWith]
  refine escWith_congr (fun c => ?_) s
  by_cases h1 : c = '&'
  · subst h1; decide
  by_cases h2 : c = '<'
  · subst h2; decide
  by_cases h3 : c = '>'
  · subst h3; decide
  by_cases h4 : c = '"'
  · subst h4; decide
  by_cases h5 : c = Char.ofNat 39
  · subst h5; decide
  simp [escChar, escWith, h1, h2, h3, h4, h5]

/-- Escaped text never contains a literal `<`. -/
theorem html_escape_no_lt (X : List Char) : ∀ c ∈ html_escape X, c ≠ '<' := by
  intro c hc
  rw [html_escape_eq] at hc
  obtain ⟨d, _, hcd⟩ := mem_escWith hc
  unfold escChar at hcd
  split_ifs at hcd with g1 g2 g3 g4 g5
  · rw [show chars "&amp;" = ['&', 'a', 'm', 'p', ';'] from rfl] at hcd
    simp at hcd
    rcases hcd with rfl | rfl | rfl | rfl | rfl <;> decide
  · rw [show chars "&lt;" = ['&', 'l', 't', ';'] from rfl] at hcd
    simp at hcd
    rcases hcd with rfl | rfl | rfl | rfl <;> decide
  · rw [show chars "&gt;" = ['&', 'g', 't', ';'] from rfl] at hcd
    simp at hcd
    rcases hcd with rfl | rfl | rfl | rfl <;> decide
  · rw [show chars "&quot;" = ['&', 'q', 'u', 'o', 't', ';'] from rfl] at hcd
    simp at hcd
    rcases hcd with rfl | rfl | rfl | rfl | rfl | rfl <;> decide
  · rw [show chars "&#x27;" = ['&', '#', 'x', '2', '7', ';'] from rfl] at hcd
    simp at hcd
    rcases hcd with rfl | rfl | rfl | rfl | rfl | rfl <;> decide
  · simp only [List.mem_singleton] at hcd
    subst hcd
    exact g2


/-! ### First-occurrence facts for the literal-text span -/

theorem findSplit?_cons (pat : List Char) (c : Char) (s' : List Char) :
    findSplit? pat (c :: s')
      = if pat.isPrefixOf (c :: s') then some ([], (c :: s').drop pat.length)
        else
          match findSplit? pat s' with
          | some (pre, post) => some (c :: pre, post)
          | none => none := rfl

/-- In `X ++ cl ++ r` with `cl` not a substring of `X` and `cl` free of
nontrivial borders, the first occurrence of `cl` is exactly the middle one. -/
theorem findSplit?_boundary (cl : List Char) (hcl : cl ≠ [])
    (hnb : ∀ k, k < cl.length → 0 < k →
      cl.drop k ≠ cl.take (cl.length - k)) :
    ∀ (X r : List Char), hasSub X cl = false →
      findSplit? cl (X ++ (cl ++ r)) = some (X, r) := by
  intro X
  induction X with
  | nil =>
    intro r _
    obtain ⟨c, cl', hcc⟩ := List.exists_cons_of_ne_nil hcl
    subst hcc
    rw [List.nil_append, List.cons_append, findSplit?_cons]
    have hpre : (c :: cl').isPrefixOf (c :: (cl' ++ r)) = true := by
      have := isPrefixOf_append_self (c :: cl') r
      rwa [List.cons_append] at this
    simp only [hpre, if_true]
    have hdrop : (c :: (cl' ++ r)).drop (c :: cl').length = r := by
      have := List.drop_left (c :: cl') r
      rwa [List.cons_append] at this
    rw [hdrop]
  | cons x X' ih =>
    intro r hX
    obtain ⟨hnp, hX'⟩ := hasSub_false_parts hX
    have hpre : cl.isPrefixOf ((x :: X') ++ (cl ++ r)) = false := by
      cases hh : cl.isPrefixOf ((x :: X') ++ (cl ++ r)) with
      | false => rfl
      | true =>
        exfalso
        obtain ⟨t, ht⟩ := isPrefixOf_iff_ex.mp hh
        by_cases hlen : cl.length ≤ (x :: X').length
        · have h1 : ((x :: X') ++ (cl ++ r)).take cl.length
              = (x :: X').take cl.length ++ (cl ++ r).take (cl.length - (x :: X').length) := by
            exact List.take_append_eq_append_take
          rw [Nat.sub_eq_zero_of_le hlen] at h1
          simp only [List.take_zero, List.append_nil] at h1
          have h2 : ((x :: X') ++ (cl ++ r)).take cl.length = cl := by
            rw [ht]
            exact List.take_left cl t
          have h3 : (x :: X').take cl.length = cl := by rw [← h1, h2]
          have h4 : cl.isPrefixOf (x :: X') = true := by
            refine isPrefixOf_iff_ex.mpr ⟨(x :: X').drop cl.length, ?_⟩
            conv_lhs => rw [← List.take_append_drop cl.length (x :: X')]
            rw [h3]
          rw [h4] at hnp
          exact Bool.noConfusion hnp
        · push_neg at hlen
          set u := x :: X' with hu
          have hul : 0 < u.length := by simp [hu]
          have h1 : (u ++ (cl ++ r)).take u.length = u := List.take_left u _
          have h2 : (cl ++ t).take u.length
              = cl.take u.length ++ t.take (u.length - cl.length) := by
            exact List.take_append_eq_append_take
          rw [Nat.sub_eq_zero_of_le (Nat.le_of_lt hlen)] at h2
          simp only [List.take_zero, List.append_nil] at h2
          have h3 : cl.take u.length = u := by rw [← h2, ← ht, h1]
          have h4 : (u ++ (cl ++ r)).drop u.length = cl ++ r := List.drop_left u _
          have h5 : (cl ++ t).drop u.length
              = cl.drop u.length ++ t.drop (u.length - cl.length) := by
            exact List.drop_append_eq_append_drop
          rw [Nat.sub_eq_zero_of_le (Nat.le_of_lt hlen)] at h5
          simp only [List.drop_zero] at h5
          have h6 : cl ++ r = cl.drop u.length ++ t := by rw [← h4, ht, h5]
          have hdl : (cl.drop u.length).length = cl.length - u.length := by
            simp
          have h7 : (cl ++ r).take (cl.length - u.length)
              = cl.take (cl.length - u.length) ++ r.take (cl.length - u.length - cl.length) := by
            exact List.take_append_eq_append_take
          have hle : cl.length - u.length ≤ cl.length := Nat.sub_le _ _
          rw [Nat.sub_eq_zero_of_le (Nat.le_trans hle (Nat.le_refl _))] at h7
          simp only [List.take_zero, List.append_nil] at h7
          have h8 : (cl.drop u.length ++ t).take (cl.length - u.length)
              = cl.drop u.length := List.take_left' hdl
          have h9 : cl.take (cl.length - u.length) = cl.drop u.length := by
            rw [← h7, h6, h8]
          exact hnb u.length hlen hul h9.symm
    rw [List.cons_append, findSplit?_cons]
    rw [List.cons_append] at hpre
    simp only [hpre, if_false, Bool.false_eq_true]
    rw [ih r hX']

theorem py_findallAux_nil (op cl : List Char) (fuel : Nat) :
    py_findallAux op cl fuel [] = [] := by
  cases fuel <;> rfl

theorem py_findallAux_start (op cl mid post : List Char) (fuel : Nat) (s : List Char)
    (hne : s ≠ [])
    (hpre : op.isPrefixOf s = true)
    (hsplit : findSplit? cl (s.drop op.length) = some (mid, post)) :
    py_findallAux op cl (fuel + 1) s
      = (op ++ mid ++ cl, mid) :: py_findallAux op cl fuel post := by
  obtain ⟨c, s', rfl⟩ := List.exists_cons_of_ne_nil hne
  simp [py_findallAux, hpre, hsplit]

theorem py_replace1_self (p r : List Char) (hp : p ≠ []) : py_replace1 p r p = r := by
  obtain ⟨c, p', rfl⟩ := List.exists_cons_of_ne_nil hp
  simp [py_replace1, isPrefixOf_self, List.drop_length]

theorem scanFuel_nil (step : List Char → Option (List Char × List Char)) (fuel : Nat) :
    scanFuel step fuel [] = [] := by
  cases fuel <;> rfl

theorem py_replace_self (p r : List Char) (hp : p ≠ []) : py_replace p r p = r := by
  obtain ⟨c, p', rfl⟩ := List.exists_cons_of_ne_nil hp
  unfold py_replace
  simp [scanFuel, replace_step, isPrefixOf_self, List.drop_length, scanFuel_nil]

/-- The inline engine on a single well-delimited literal-text span: the span
is extracted, no rewrite rule touches the placeholder, and restoration
yields exactly the HTML-escaped content. -/
theorem parse_inline_span (env : Env) (X : List Char)
    (h3 : hasSub X (chars "</plantext>") = false) :
    parse_inline env (chars "<plantext>" ++ X ++ chars "</plantext>")
      = html_escape X := by
  have hnb : ∀ k, k < (chars "</plantext>").length → 0 < k →
      (chars "</plantext>").drop k
        ≠ (chars "</plantext>").take ((chars "</plantext>").length - k) := by decide
  have hbound := findSplit?_boundary (chars "</plantext>") (by decide) hnb X [] h3
  rw [List.append_nil] at hbound
  have hne : chars "<plantext>" ++ X ++ chars "</plantext>" ≠ [] := by
    simp [chars]
  have hpre : (chars "<plantext>").isPrefixOf
      (chars "<plantext>" ++ X ++ chars "</plantext>") = true := by
    rw [List.append_assoc]; exact isPrefixOf_append_self _ _
  have hdrop : (chars "<plantext>" ++ X ++ chars "</plantext>").drop
      (chars "<plantext>").length = X ++ chars "</plantext>" := by
    rw [List.append_assoc]; exact List.drop_left _ _
  have hsplit : findSplit? (chars "</plantext>")
      ((chars "<plantext>" ++ X ++ chars "</plantext>").drop (chars "<plantext>").length)
      = some (X, []) := by rw [hdrop]; exact hbound
  have hfind : py_findall (chars "<plantext>") (chars "</plantext>")
      (chars "<plantext>" ++ X ++ chars "</plantext>")
      = [(chars "<plantext>" ++ X ++ chars "</plantext>", X)] := by
    unfold py_findall
    rw [py_findallAux_start _ _ _ _ _ _ hne hpre hsplit, py_findallAux_nil]
  unfold parse_inline
  rw [hfind]
  simp only [List.map, List.enum, List.enumFrom, List.foldl]
  rw [py_replace1_self _ _ hne]
  rw [py_replace_id (chars "<br>") (chars "<br>") (marker 0) (by decide)]
  rw [py_sub_id (chars "<small>") (chars "</small>") noNl _ (marker 0) (by decide)]
  rw [py_sub_id (chars "<big>") (chars "</big>") noNl _ (marker 0) (by decide)]
  rw [py_sub_id (chars "/*") (chars "*/") anyMid _ (marker 0) (by decide)]
  rw [redirect_sub_id (marker 0) (by decide)]
  rw [py_sub_id (chars "(") (chars ")") nonEmptyMid _ (marker 0) (by decide)]
  rw [py_sub_id (chars "(github:") (chars ")") nonEmptyMid _ (marker 0) (by decide)]
  rw [py_sub_id (chars "(ghp:") (chars ")") nonEmptyMid _ (marker 0) (by decide)]
  rw [py_sub_id (chars "\x7b\x7b") (chars "\x7d\x7d") extMid _ (marker 0) (by decide)]
  rw [py_sub_id (chars "<up>") (chars "</up>") noNl _ (marker 0) (by decide)]
  rw [py_sub_id (chars "<dn>") (chars "</dn>") noNl _ (marker 0) (by decide)]
  rw [py_replace_id (chars "<pagename>") env.title (marker 0) (by decide)]
  rw [py_replace_id (chars "<time>") env.timeStr (marker 0) (by decide)]
  rw [py_replace_self (marker 0) (html_escape X) (by decide)]


/-! ### The post-processor is the identity on an escaped paragraph -/

theorem mem_of_getLast?_eq {l : List Char} {a : Char} (h : l.getLast? = some a) :
    a ∈ l := by
  induction l with
  | nil => simp at h
  | cons c l' ih =>
    cases l' with
    | nil =>
      simp [List.getLast?] at h
      simp [h]
    | cons d l'' =>
      rw [List.getLast?_cons_cons] at h
      simp [ih h]

/-- None of the `<`-initiated special-tag patterns occurs in
`<p>` ++ E ++ `</p>` when `E` is free of `<` and the pattern's second
character is neither `p` nor `/`. -/
theorem pwrap_no_tag (E : List Char) (hE : ∀ c ∈ E, c ≠ '<') (b : Char)
    (p : List Char)
    (h1 : twoSub '<' b (chars "<p>") = false)
    (h2 : twoSub '<' b (chars "</p>") = false) :
    hasSub (chars "<p>" ++ E ++ chars "</p>") ('<' :: b :: p) = false := by
  apply not_hasSub_of_two
  have hE2 : twoSub '<' b E = false := twoSub_of_not_mem b hE
  have hEv : twoSub '<' b (E ++ chars "</p>") = false := by
    apply twoSub_append_false hE2 h2
    intro ⟨hl, _⟩
    exact absurd rfl (hE _ (mem_of_getLast?_eq hl))
  have hall : twoSub '<' b (chars "<p>" ++ (E ++ chars "</p>")) = false := by
    apply twoSub_append_false h1 hEv
    intro ⟨hl, _⟩
    rw [show chars "<p>" = ['<', 'p', '>'] from rfl] at hl
    exact absurd hl (by decide)
  rw [List.append_assoc]
  exact hall

theorem special_tags_id_of_escaped (env : Env) (E : List Char)
    (hE : ∀ c ∈ E, c ≠ '<') :
    parse_special_tags env (chars "<p>" ++ E ++ chars "</p>")
      = chars "<p>" ++ E ++ chars "</p>" := by
  apply parse_special_tags_id
  · rw [show chars "<style>" = '<' :: 's' :: chars "tyle>" from rfl]
    exact pwrap_no_tag E hE 's' _ (by decide) (by decide)
  · rw [show chars "<script>" = '<' :: 's' :: chars "cript>" from rfl]
    exact pwrap_no_tag E hE 's' _ (by decide) (by decide)
  · rw [show chars "<iframe src=\"" = '<' :: 'i' :: chars "frame src=\"" from rfl]
    exact pwrap_no_tag E hE 'i' _ (by decide) (by decide)
  · rw [show chars "<img src=\"" = '<' :: 'i' :: chars "mg src=\"" from rfl]
    exact pwrap_no_tag E hE 'i' _ (by decide) (by decide)
  · rw [show chars "<button" = '<' :: 'b' :: chars "utton" from rfl]
    exact pwrap_no_tag E hE 'b' _ (by decide) (by decide)
  · rw [show chars "<code lang=\"" = '<' :: 'c' :: chars "ode lang=\"" from rfl]
    exact pwrap_no_tag E hE 'c' _ (by decide) (by decide)
  · rw [show chars "<co>" = '<' :: 'c' :: chars "o>" from rfl]
    exact pwrap_no_tag E hE 'c' _ (by decide) (by decide)
  · rw [show chars "<mw>" = '<' :: 'm' :: chars "w>" from rfl]
    exact pwrap_no_tag E hE 'm' _ (by decide) (by decide)
  · rw [show chars "<doc>" = '<' :: 'd' :: chars "oc>" from rfl]
    exact pwrap_no_tag E hE 'd' _ (by decide) (by decide)


/-! ### Line-level facts for a single literal-text span -/

theorem splitChar_nosep (ch : Char) (s : List Char) (h : ∀ c ∈ s, c ≠ ch) :
    splitChar ch s = [s] := by
  induction s with
  | nil => rfl
  | cons c s' ih =>
    have hc : c ≠ ch := h c (by simp)
    have ih' := ih (fun d hd => h d (by simp [hd]))
    simp [splitChar, ih', hc]

theorem py_rstrip_last (s : List Char) (c : Char) (h : isPySpace c = false) :
    py_rstrip (s ++ [c]) = s ++ [c] := by
  unfold py_rstrip
  rw [List.reverse_append]
  simp [List.dropWhile, h]

theorem py_lstrip_cons_nospace (c : Char) (s : List Char) (h : isPySpace c = false) :
    py_lstrip (c :: s) = c :: s := by
  simp [py_lstrip, List.dropWhile, h]

theorem py_rstrip_span (X : List Char) :
    py_rstrip (chars "<plantext>" ++ X ++ chars "</plantext>")
      = chars "<plantext>" ++ X ++ chars "</plantext>" := by
  have hform : chars "<plantext>" ++ X ++ chars "</plantext>"
      = (chars "<plantext>" ++ X ++ chars "</plantext") ++ ['>'] := by
    rw [show chars "</plantext>" = chars "</plantext" ++ ['>'] from rfl]
    simp
  rw [hform, py_rstrip_last _ _ (by decide)]

theorem span_cons_form (X : List Char) :
    chars "<plantext>" ++ X ++ chars "</plantext>"
      = '<' :: (chars "plantext>" ++ X ++ chars "</plantext>") := rfl

theorem py_strip_span_ne (X : List Char) :
    (py_strip (chars "<plantext>" ++ X ++ chars "</plantext>")).isEmpty = false := by
  unfold py_strip
  rw [span_cons_form, py_lstrip_cons_nospace _ _ (by decide), ← span_cons_form,
    py_rstrip_span, span_cons_form]
  simp

theorem parse_headers_span (env : Env) (X : List Char) :
    parse_headers env (chars "<plantext>" ++ X ++ chars "</plantext>") = none := by
  unfold parse_headers
  rw [span_cons_form]
  simp [List.isPrefixOf]

theorem parse_template_span (env : Env) (recur : List Char → Except PyErr (List Char))
    (X : List Char) (rest : List (List Char)) :
    parse_template env recur ((chars "<plantext>" ++ X ++ chars "</plantext>") :: rest)
      = .ok none := by
  unfold parse_template
  rw [span_cons_form]
  simp [List.isPrefixOf]

/-- The comment stripper does not touch the span text when the content holds
no comment opener. -/
theorem comment_free_span (X : List Char) (h2 : hasSub X (chars "/*") = false) :
    hasSub (chars "<plantext>" ++ X ++ chars "</plantext>") (chars "/*") = false := by
  rw [show chars "/*" = ['/', '*'] from rfl]
  rw [hasSub_pair]
  have hX : twoSub '/' '*' X = false := by
    rw [← hasSub_pair]
    exact h2
  have hcl : twoSub '/' '*' (chars "</plantext>") = false := by decide
  have hv : twoSub '/' '*' (X ++ chars "</plantext>") = false := by
    apply twoSub_append_false hX hcl
    intro ⟨_, hr⟩
    rw [show chars "</plantext>" = '<' :: chars "/plantext>" from rfl] at hr
    exact absurd hr (by decide)
  have hall : twoSub '/' '*' (chars "<plantext>" ++ (X ++ chars "</plantext>")) = false := by
    apply twoSub_append_false (by decide) hv
    intro ⟨hl, _⟩
    rw [show chars "<plantext>" = ['<', 'p', 'l', 'a', 'n', 't', 'e', 'x', 't', '>'] from rfl] at hl
    exact absurd hl (by decide)
  rw [List.append_assoc]
  exact hall

/-- One pipeline line holding exactly one literal-text span renders to the
escaped paragraph. -/
theorem render_line_span (env : Env) (recur : List Char → Except PyErr (List Char))
    (X : List Char) (h3 : hasSub X (chars "</plantext>") = false) :
    render_lines env recur 2 [chars "<plantext>" ++ X ++ chars "</plantext>"]
      = .ok [chars "<p>" ++ html_escape X ++ chars "</p>"] := by
  show render_lines env recur (1 + 1) _ = _
  simp only [render_lines, py_rstrip_span, py_strip_span_ne, parse_headers_span,
    parse_template_span, parse_inline_span env X h3, Bool.false_eq_true, if_false,
    Except.map]


/-- C1 (amended): for any render context and any literal-text content `X`
confined to a single line (no newline), holding no comment opener `/*` and
no closing tag `</plantext>`, rendering the line `<plantext>X</plantext>`
yields exactly the paragraph around the HTML-escaping of `X`: no rule of the
pipeline reinterprets any part of `X`. -/
theorem c1_amended (env : Env) (fuel : Nat) (X : List Char)
    (h1 : ∀ c ∈ X, c ≠ '\n')
    (h2 : hasSub X (chars "/*") = false)
    (h3 : hasSub X (chars "</plantext>") = false) :
    parse_to_html env (fuel + 1) (chars "<plantext>" ++ X ++ chars "</plantext>")
      = .ok (chars "<p>" ++ html_escape X ++ chars "</p>") := by
  have hop : ∀ c ∈ chars "<plantext>", c ≠ '\n' := by decide
  have hcl : ∀ c ∈ chars "</plantext>", c ≠ '\n' := by decide
  have hnl : ∀ c ∈ chars "<plantext>" ++ X ++ chars "</plantext>", c ≠ '\n' := by
    intro c hc
    rw [List.append_assoc] at hc
    rcases List.mem_append.mp hc with h | h
    · exact hop c h
    rcases List.mem_append.mp h with h | h
    · exact h1 c h
    · exact hcl c h
  have hcs : py_sub (chars "/*") (chars "*/") anyMid (fun _ => [])
      (chars "<plantext>" ++ X ++ chars "</plantext>")
      = chars "<plantext>" ++ X ++ chars "</plantext>" :=
    py_sub_id _ _ _ _ _ (comment_free_span X h2)
  have hsp : splitChar '\n' (chars "<plantext>" ++ X ++ chars "</plantext>")
      = [chars "<plantext>" ++ X ++ chars "</plantext>"] :=
    splitChar_nosep _ _ hnl
  simp only [parse_to_html, hcs, hsp]
  rw [show ([chars "<plantext>" ++ X ++ chars "</plantext>"] : List (List Char)).length + 1
      = 2 from by simp]
  rw [render_line_span env _ X h3]
  simp only [Except.map, py_join]
  rw [special_tags_id_of_escaped env (html_escape X) (html_escape_no_lt X)]

/-- C1 witness: the amended theorem at `X = "(Home)"` — the wiki-link syntax
inside the span stays literal. -/
theorem c1_witness :
    (∀ c ∈ chars "(Home)", c ≠ '\n')
    ∧ hasSub (chars "(Home)") (chars "/*") = false
    ∧ hasSub (chars "(Home)") (chars "</plantext>") = false
    ∧ parse_to_html env0 (0 + 1) (chars "<plantext>" ++ chars "(Home)" ++ chars "</plantext>")
        = .ok (chars "<p>" ++ html_escape (chars "(Home)") ++ chars "</p>") :=
  ⟨by decide, by decide, by decide,
   c1_amended env0 0 (chars "(Home)") (by decide) (by decide) (by decide)⟩

/-! ### Bridges from the Python string operations to the list primitives -/

theorem py_countF_plus : ∀ fuel (s : List Char), s.length < fuel →
    py_countF (chars "+") fuel s = s.count '+' := by
  intro fuel
  induction fuel with
  | zero => intro s h; omega
  | succ n ih =>
    intro s h
    cases s with
    | nil => simp [py_countF]
    | cons c s' =>
      have hlen : s'.length < n := by simpa using h
      by_cases hc : c = '+'
      · subst hc
        have hpre : (chars "+").isPrefixOf ('+' :: s') = true := by
          simp [chars, List.isPrefixOf]
        have hdrop : ('+' :: s').drop (chars "+").length = s' := rfl
        simp only [py_countF, hpre, if_true, hdrop, ih s' hlen, List.count_cons]
        simp [Nat.add_comm]
      · have hpre : (chars "+").isPrefixOf (c :: s') = false := by
          simp [chars, List.isPrefixOf]
          exact fun h' => absurd h'.symm hc
        simp [py_countF, hpre, ih s' hlen, List.count_cons, hc]

theorem py_count_plus (s : List Char) : py_count (chars "+") s = s.count '+' :=
  py_countF_plus (s.length + 1) s (by omega)

theorem contains_plus (c : Char) : (chars "+").contains c = decide (c = '+') := by
  rw [show chars "+" = ['+'] from rfl]
  by_cases h : c = '+' <;> simp [h]

theorem dropWhile_congr_fun {p q : Char → Bool} (h : ∀ c, p c = q c) :
    ∀ s : List Char, s.dropWhile p = s.dropWhile q := by
  intro s
  induction s with
  | nil => rfl
  | cons c s' ih =>
    simp only [List.dropWhile, h c]
    cases q c <;> simp [ih]

theorem py_lstrip_any_plus (s : List Char) :
    py_lstrip_any (chars "+") s = s.dropWhile (fun c => c = '+') := by
  unfold py_lstrip_any
  exact dropWhile_congr_fun (fun c => contains_plus c) s

theorem startswith_plus_iff (line : List Char) :
    (chars "+").isPrefixOf line = true ↔ line.head? = some '+' := by
  cases line with
  | nil => simp [chars, List.isPrefixOf]
  | cons c s =>
    by_cases hc : c = '+' <;> simp [chars, List.isPrefixOf, hc]
    exact fun h => absurd h.symm hc

theorem count_pos_of_head {line : List Char} (h : line.head? = some '+') :
    1 ≤ line.count '+' := by
  cases line with
  | nil => simp at h
  | cons c s =>
    simp at h
    subst h
    simp [List.count_cons]

/-- C3 (amended): a line renders as a heading exactly when it starts with
`+` and its total number of `+` characters (anywhere in the line, which is
what `line.count('+')` computes) is at most 4; the heading rank is that
total count, and the heading text is the line with its leading `+` run and
surrounding whitespace stripped, passed through the inline engine.  Lines
not starting with `+`, or whose total `+` count exceeds 4, fall through. -/
theorem c3_amended (env : Env) (line : List Char) :
    (line.head? = some '+' → line.count '+' ≤ 4 →
      parse_headers env line
        = some (chars "<h" ++ natStr (line.count '+') ++ chars ">" ++
            parse_inline env (py_strip (line.dropWhile (fun c => c = '+'))) ++
            chars "</h" ++ natStr (line.count '+') ++ chars ">"))
    ∧ (4 < line.count '+' → parse_headers env line = none)
    ∧ (line.head? ≠ some '+' → parse_headers env line = none) := by
  refine ⟨?_, ?_, ?_⟩
  · intro hh hle
    have hpre : (chars "+").isPrefixOf line = true := (startswith_plus_iff line).mpr hh
    have h1 : 1 ≤ line.count '+' := count_pos_of_head hh
    simp only [parse_headers, hpre, if_true, py_count_plus, py_lstrip_any_plus]
    simp [h1, hle]
  · intro hgt
    cases hpre : (chars "+").isPrefixOf line with
    | false => simp [parse_headers, hpre]
    | true =>
      simp only [parse_headers, hpre, if_true, py_count_plus]
      have hcond2 : (1 ≤ line.count '+' && line.count '+' ≤ 4) = false := by
        simp
        omega
      simp [hcond2]
      intro _
      exact hgt
  · intro hh
    have hpre : (chars "+").isPrefixOf line = false := by
      cases hp : (chars "+").isPrefixOf line with
      | false => rfl
      | true => exact absurd ((startswith_plus_iff line).mp hp) hh
    simp [parse_headers, hpre]

/-- C3 witness: the amended theorem at the line `++T+` (rank 3 from the
three `+` characters, text `T+`) and at `+++++A` (count 5, no heading). -/
theorem c3_witness :
    (chars "++T+").head? = some '+'
    ∧ (chars "++T+").count '+' ≤ 4
    ∧ parse_headers env0 (chars "++T+")
        = some (chars "<h" ++ natStr ((chars "++T+").count '+') ++ chars ">" ++
            parse_inline env0 (py_strip ((chars "++T+").dropWhile (fun c => c = '+'))) ++
            chars "</h" ++ natStr ((chars "++T+").count '+') ++ chars ">")
    ∧ (4 < (chars "+++++A").count '+' ∧ parse_headers env0 (chars "+++++A") = none) :=
  ⟨by decide, by decide,
   (c3_amended env0 (chars "++T+")).1 (by decide) (by decide),
   by decide, (c3_amended env0 (chars "+++++A")).2.1 (by decide)⟩

end TxPyWiki
